import Mathlib

/-!
Verification of the CodeDust code-hygiene inspector (`src/codedust.py`).

The Python source is shallowly embedded: lines are `String`s (kept with their
trailing newline, exactly as produced by `file.readlines()`), rule sets are a
structure of the four named settings plus an association list of rule-code
toggles, and the two generator functions `inspect_line` / `inspect_file`
become pure functions returning the list of yielded items together with a
Boolean flag recording whether evaluation would raise a Python exception at
the point the list stops (Python generators propagate the exception to the
consumer; items yielded before the raise have already been delivered).

Scope notes on the embedding of Python string primitives: the inspected
files are text, and all patterns in the source are ASCII, so the character
class predicates (`[0-9]`, `\w`, upper/lower casing) are embedded with their
ASCII meaning, stated over `Char.toNat` code points.
-/

/-- Python `str.strip()` whitespace set: space, tab, newline, carriage
return, vertical tab, form feed (ASCII scope). -/
def isPySpace (c : Char) : Bool :=
  c.toNat == 32 || c.toNat == 9 || c.toNat == 10 || c.toNat == 13 ||
  c.toNat == 11 || c.toNat == 12

/-- Left strip of Python `str.strip()`. -/
def lstripL (l : List Char) : List Char := l.dropWhile isPySpace

/-- Right strip of Python `str.strip()` / `str.rstrip()`. -/
def rstripL (l : List Char) : List Char := (l.reverse.dropWhile isPySpace).reverse

/-- Python `str.strip()` on a character list. -/
def stripL (l : List Char) : List Char := rstripL (lstripL l)

/-- Is `n` an initial segment of `h`. -/
def isPrefixL : List Char → List Char → Bool
  | [], _ => true
  | _ :: _, [] => false
  | a :: as, b :: bs => a == b && isPrefixL as bs

/-- Python substring containment `n in h` over character lists. -/
def hasSubL : List Char → List Char → Bool
  | n, [] => isPrefixL n []
  | n, c :: t => isPrefixL n (c :: t) || hasSubL n t

/-- `re.search` of a two-character pattern: some adjacent pair `(a, b)`
with `p a` and `q b` occurs in the list. -/
def hasPairL (p q : Char → Bool) : List Char → Bool
  | [] => false
  | [_] => false
  | a :: b :: t => (p a && q b) || hasPairL p q (b :: t)

/-- Python `str.strip()`. -/
def stripStr (s : String) : String := ⟨stripL s.data⟩

/-- Python `str.rstrip()`. -/
def rstripStr (s : String) : String := ⟨rstripL s.data⟩

/-- Python `n in s` substring test. -/
def hasSubStr (n s : String) : Bool := hasSubL n.data s.data

/-- Python `s.startswith(p)`. -/
def startsWithStr (p s : String) : Bool := isPrefixL p.data s.data

/-- Python `s.endswith(p)`. -/
def endsWithStr (p s : String) : Bool := isPrefixL p.data.reverse s.data.reverse

/-- Two-character `re.search` on a string. -/
def hasPairStr (p q : Char → Bool) (s : String) : Bool := hasPairL p q s.data

/-- `is_line_empty` (codedust.py line 102): the stripped line is empty. -/
def isLineEmpty (line : String) : Bool := stripStr line == ""

/-- `line_indent` (codedust.py line 105): `re.match(r' *', line).end()`,
the number of leading space characters. -/
def lineIndent (line : String) : Nat := (line.data.takeWhile (fun c => c.toNat == 32)).length

/-- `[0-9]`. -/
def isDig (c : Char) : Bool := 48 ≤ c.toNat && c.toNat ≤ 57

/-- `\w` (ASCII scope): letters, digits, underscore. -/
def isWordChar (c : Char) : Bool :=
  (65 ≤ c.toNat && c.toNat ≤ 90) || (97 ≤ c.toNat && c.toNat ≤ 122) ||
  isDig c || c.toNat == 95

/-- `[\w\(]`, the class following a comma/semicolon in CD0207/CD0208. -/
def isWordOrOpenParen (c : Char) : Bool := isWordChar c || c.toNat == 40

/-- `[\{\[\(\<]`: one of the opening brackets of CD0105. -/
def isOpenBracket (c : Char) : Bool :=
  c.toNat == 123 || c.toNat == 91 || c.toNat == 40 || c.toNat == 60

/-- `[\}\]\)\>]`: one of the closing brackets of CD0106. -/
def isCloseBracket (c : Char) : Bool :=
  c.toNat == 125 || c.toNat == 93 || c.toNat == 41 || c.toNat == 62

/-- `[a-z0-9\)\]\}\"\']`: the class preceding `=` in CD0209. -/
def isCls209 (c : Char) : Bool :=
  (97 ≤ c.toNat && c.toNat ≤ 122) || isDig c ||
  c.toNat == 41 || c.toNat == 93 || c.toNat == 125 || c.toNat == 34 || c.toNat == 39

/-- `[a-z0-9\(\[\{\"\']`: the class following `=` in CD0210. -/
def isCls210 (c : Char) : Bool :=
  (97 ≤ c.toNat && c.toNat ≤ 122) || isDig c ||
  c.toNat == 40 || c.toNat == 91 || c.toNat == 123 || c.toNat == 34 || c.toNat == 39

/-- `re.search(r'[\{\[\(\<]$', s)`: the (stripped) string ends in an
opening bracket. -/
def lastIsOpenBracket (l : List Char) : Bool :=
  match l.getLast? with
  | some c => isOpenBracket c
  | none => false

/-- `re.search(r'^[\}\]\)\>]', s)`: the (stripped) string starts with a
closing bracket. -/
def headIsCloseBracket (l : List Char) : Bool :=
  match l.head? with
  | some c => isCloseBracket c
  | none => false

/-- `re.search(r'(^\#+$)|(^\/+$)|(^\-+$)', s)` on the stripped line: a
non-empty run of only `#`, only `/`, or only `-`. -/
def isSectionHdrStr (s : String) : Bool :=
  !s.data.isEmpty &&
    (s.data.all (fun c => c.toNat == 35) || s.data.all (fun c => c.toNat == 47) ||
     s.data.all (fun c => c.toNat == 45))

/-- The rule set handed to `inspect_line`: the four named settings of
`static_rules` (codedust.py lines 71-76) plus the rule-code toggles.
Rule codes absent from `codes` are enabled, matching `rules.get(code)`
returning `None`. -/
structure RuleSet where
  indentSize : Int
  maxLineLength : Int
  sectionHeaderLength : Int
  lineComment : Option String
  codes : List (String × Bool)

/-- `rules.get(code) != False` (the guard on every yield in `inspect_line`). -/
def ruleEnabled (rs : RuleSet) (code : String) : Bool :=
  !(rs.codes.lookup code == some false)

/-- One yield site of `inspect_line`: condition, rule code, message. -/
abbrev CheckSpec := Bool × String × String

/-- Runs a block of checks in order: each satisfied condition whose rule
code is enabled yields its `(code, message)` pair. -/
def buildIssues (rs : RuleSet) : List CheckSpec → List (String × String)
  | [] => []
  | (cond, code, msg) :: rest =>
    (if cond && ruleEnabled rs code then [(code, msg)] else []) ++ buildIssues rs rest

/-- Checks CD0101-CD0103 (codedust.py lines 110-120), evaluated for every
line. -/
def specsA (prev : Option String) (curr : String) (next : Option String) : List CheckSpec :=
  [ (isLineEmpty curr && prev == none, "CD0101",
     "There should be no empty lines at the start of the file."),
    (isLineEmpty curr && next == none, "CD0102",
     "There should be no empty lines at the end of the file."),
    (!endsWithStr "\n" curr && next == none, "CD0103",
     "There should be a line break at the end of the file.") ]

/-- Checks CD0104-CD0105 (codedust.py lines 123-129), evaluated when the
previous line is present (Python's guard `curr_line != None and
prev_line != None`; `curr_line` is always a string). -/
def specsB (p curr : String) : List CheckSpec :=
  [ (isLineEmpty p && isLineEmpty curr, "CD0104",
     "There should be no multiple consecutive empty lines."),
    (isLineEmpty curr && lastIsOpenBracket (stripL p.data), "CD0105",
     "There should be no empty lines at the start of a parenthesis block.") ]

/-- Checks CD0106-CD0301 (codedust.py lines 131-181).  Reached only when
the CD0106 guard does not dereference an absent next line, so the `none`
branch of the CD0106 condition is unreachable there. -/
def specsC (curr : String) (next : Option String) (rs : RuleSet) : List CheckSpec :=
  [ (isLineEmpty curr &&
       (match next with
        | some n => headIsCloseBracket (stripL n.data)
        | none => false), "CD0106",
     "There should be no empty lines at the end of a parenthesis block."),
    (hasSubStr "  " (stripStr curr), "CD0201",
     "There should be no multiple consecutive spaces in a line."),
    (endsWithStr " \n" curr, "CD0202",
     "There should be no spaces at the end of a line."),
    (hasSubStr " ," (stripStr curr), "CD0203",
     "There should be no space before comma."),
    (hasSubStr " ;" (stripStr curr), "CD0204",
     "There should be no space before semicolon."),
    (hasSubStr "( " (stripStr curr), "CD0205",
     "There should be no space after opening parentheses."),
    (hasSubStr " )" (stripStr curr), "CD0206",
     "There should be no space before closing parentheses."),
    (hasPairStr (fun c => c.toNat == 44) isWordOrOpenParen curr, "CD0207",
     "There should be a space after comma."),
    (hasPairStr (fun c => c.toNat == 59) isWordOrOpenParen curr, "CD0208",
     "There should be a space after semicolon."),
    (hasPairStr isCls209 (fun c => c.toNat == 61) curr && !hasSubStr "====" curr, "CD0209",
     "There should be a space before equal sign."),
    (hasPairStr (fun c => c.toNat == 61) isCls210 curr && !hasSubStr "====" curr, "CD0210",
     "There should be a space after equal sign."),
    (hasSubStr "\t" curr, "CD0301",
     "Don\x27t use tabs, use " ++ toString rs.indentSize ++ " spaces.") ]

/-- Checks CD0302-CD0502 (codedust.py lines 183-218), reached only when
`indent_size` is nonzero (otherwise `%` raises `ZeroDivisionError`). -/
def specsD (p curr : String) (rs : RuleSet) : List CheckSpec :=
  [ (decide (((lineIndent curr : Int)) % rs.indentSize ≠ 0), "CD0302",
     "Use " ++ toString rs.indentSize ++ " spaces per indentation level."),
    (!isLineEmpty p && decide (lineIndent curr > lineIndent p) &&
       decide ((lineIndent curr : Int) - (lineIndent p : Int) > rs.indentSize), "CD0303",
     "Don\x27t indent for more than one level (" ++ toString rs.indentSize ++
       " spaces) at a time."),
    (decide (((rstripStr curr).data.length : Int) > rs.maxLineLength), "CD0401",
     "Line should not be longer than " ++ toString rs.maxLineLength ++ " characters."),
    (isSectionHdrStr (stripStr curr) &&
       decide (((stripStr curr).data.length : Int) ≠ rs.sectionHeaderLength), "CD0402",
     "Section header should be " ++ toString rs.sectionHeaderLength ++ " characters long.") ]
  ++ (match rs.lineComment with
      | none => []
      | some lc =>
        if !(lc == "") && hasSubStr lc curr && !isSectionHdrStr (stripStr curr) then
          [ (!hasSubStr (lc ++ " ") curr, "CD0501",
             "There should be a space between comment syntax characters and comment text."),
            (!hasSubStr (" " ++ lc) curr && !startsWithStr lc curr, "CD0502",
             "There should be a space before comment syntax characters.") ]
        else [])

/-- `inspect_line` (codedust.py lines 108-218).  Returns the yielded
`(code, message)` pairs, in source order, together with a flag that is
`true` when full evaluation raises: the CD0106 guard dereferences
`next_line.strip()` on `None` whenever the current line is empty and the
next line is absent (`AttributeError`), and `line_indent(curr) %
indent_size` raises `ZeroDivisionError` when `indent_size` is zero.  The
returned list holds the items yielded before the raising point. -/
def inspectLine (prev : Option String) (curr : String) (next : Option String)
    (rs : RuleSet) : List (String × String) × Bool :=
  let a := buildIssues rs (specsA prev curr next)
  match prev with
  | none => (a, false)
  | some p =>
    let b := buildIssues rs (specsB p curr)
    if isLineEmpty curr && next == none then (a ++ b, true)
    else
      let c := buildIssues rs (specsC curr next rs)
      if rs.indentSize == 0 then (a ++ b ++ c, true)
      else (a ++ b ++ c ++ buildIssues rs (specsD p curr rs), false)

/-- The rules the repository test suite calls the defaults
(`test_codedust.py` lines 24-29): built-in settings plus `line_comment = "#"`
and no rule-code overrides. -/
def defaultTestRules : RuleSet :=
  { indentSize := 4, maxLineLength := 120, sectionHeaderLength := 100,
    lineComment := some "#", codes := [] }

/-- Does the issue list carry a violation with the given rule code. -/
def hasCode (code : String) (issues : List (String × String)) : Bool :=
  issues.any (fun p => p.1 == code)

example : hasCode "CD0202" (inspectLine (some "code\n") "some code \n" (some "more code\n")
    defaultTestRules).1 = true := by decide

example : (inspectLine (some "some code\n") "\n" none defaultTestRules).2 = true := by decide

example : hasCode "CD0501" (inspectLine (some "code\n") "#comment\n" (some "m\n")
    defaultTestRules).1 = true := by decide

example : hasCode "CD0502" (inspectLine (some "code\n") "#comment\n" (some "m\n")
    defaultTestRules).1 = false := by decide

/-- A diagnostic yielded by `inspect_file`: either a rule violation
`(line_number, issue_code, issue_message)` or the trailing suppression
note `(code_dust_disabled_in_line, message)`, which carries no rule code. -/
inductive Diag where
  | issue (lineNumber : Nat) (code msg : String)
  | note (lineNumber : Nat) (msg : String)
  deriving DecidableEq

/-- The `zip([None] + lines[:-1], lines, lines[1:] + [None])` context
triples of codedust.py lines 248-252, one per line of the file. -/
def mkTriples (prevLine : Option String) :
    List String → List (Option String × String × Option String)
  | [] => []
  | c :: rest => (prevLine, c, rest.head?) :: mkTriples (some c) rest

/-- The loop of `inspect_file` (codedust.py lines 258-270).  Arguments
mirror the mutable state: current `line_number`, `code_dust_enabled`,
`code_dust_disabled_in_line`.  Returns the yielded diagnostics, the final
`code_dust_disabled_in_line`, and whether `inspect_line` raised (which in
Python propagates out of the generator, ending it early). -/
def scanLines (rs : RuleSet) :
    List (Option String × String × Option String) → Nat → Bool → Nat →
    List Diag × Nat × Bool
  | [], _, _, disabledLine => ([], disabledLine, false)
  | (pl, cl, nl) :: rest, lineNumber, enabled, disabledLine =>
    let n := lineNumber + 1
    let s1 : Bool × Nat :=
      if hasSubStr " CodeDust: OFF\n" cl then (false, n) else (enabled, disabledLine)
    let s2 : Bool × Nat :=
      if hasSubStr " CodeDust: ON\n" cl then (true, 0) else s1
    if hasSubStr " CodeDust: SKIP\n" cl || !s2.1 then
      scanLines rs rest n s2.1 s2.2
    else
      let r := inspectLine pl cl nl rs
      let ds := r.1.map (fun p => Diag.issue n p.1 p.2)
      if r.2 then (ds, s2.2, true)
      else
        let rec2 := scanLines rs rest n s2.1 s2.2
        (ds ++ rec2.1, rec2.2.1, rec2.2.2)

/-- `inspect_file` (codedust.py lines 241-273) after the file has been
read into its list of lines: scans the lines and, when the loop finishes
with suppression still active, yields the trailing re-enable note.  The
Boolean records whether evaluation raised inside `inspect_line` (in which
case the note is never reached). -/
def inspectFile (lines : List String) (rs : RuleSet) : List Diag × Bool :=
  let r := scanLines rs (mkTriples none lines) 0 true 0
  if r.2.2 then (r.1, true)
  else if r.2.1 > 0 then
    (r.1 ++ [Diag.note r.2.1 "CodeDust should be re-enabled afterwards."], false)
  else (r.1, false)

example : inspectFile ["a\n", "# CodeDust: OFF\n", "b  \n", "c  \n", "# CodeDust: ON\n",
    "d  \n"] defaultTestRules =
    ([Diag.issue 6 "CD0202" "There should be no spaces at the end of a line."], false) := by
  decide

example : inspectFile ["a\n", "# CodeDust: OFF\n", "b\n"] defaultTestRules =
    ([Diag.note 2 "CodeDust should be re-enabled afterwards."], false) := by decide

example : (inspectFile ["a\n", "\n"] defaultTestRules).2 = true := by decide

/-- A value held in the rule dictionaries of `load_rules`: Python int,
str, bool, or `None`. -/
inductive CVal where
  | vInt (n : Int)
  | vStr (s : String)
  | vBool (b : Bool)
  | vNone
  deriving DecidableEq

/-- A parsed configuration file: named sections of key/value string
pairs, as produced by `configparser` (which lower-cases option names, so
section keys are taken as already normalized; within one section keys are
unique). -/
structure Config where
  sections : List (String × List (String × String))

/-- Python `str.upper()` on one character (ASCII scope). -/
def pyCharUpper (c : Char) : Char :=
  if 97 ≤ c.toNat ∧ c.toNat ≤ 122 then Char.ofNat (c.toNat - 32) else c

/-- Python `str.lower()` on one character (ASCII scope). -/
def pyCharLower (c : Char) : Char :=
  if 65 ≤ c.toNat ∧ c.toNat ≤ 90 then Char.ofNat (c.toNat + 32) else c

/-- Python `str.upper()` (ASCII scope). -/
def pyUpper (s : String) : String := ⟨s.data.map pyCharUpper⟩

/-- Python `str.lower()` (ASCII scope). -/
def pyLower (s : String) : String := ⟨s.data.map pyCharLower⟩

/-- Does a character list begin with `C`, `D`, then four digits. -/
def cdPattern : List Char → Bool
  | c1 :: c2 :: d1 :: d2 :: d3 :: d4 :: _ =>
    c1 == 'C' && c2 == 'D' && isDig d1 && isDig d2 && isDig d3 && isDig d4
  | _ => false

/-- `re.match(r"CD[0-9]{4}", rule.upper())` (codedust.py line 91):
`re.match` anchors only at the start, so this is a prefix test on the
upper-cased key. -/
def cdKeyMatch (k : String) : Bool := cdPattern (pyUpper k).data

/-- Digit tail of Python `int(str)`: digits with single underscores
allowed between digits, accumulating the value. -/
def parseNatTail (acc : Nat) : List Char → Option Nat
  | [] => some acc
  | '_' :: c :: rest =>
    if isDig c then parseNatTail (acc * 10 + (c.toNat - 48)) rest else none
  | c :: rest =>
    if isDig c then parseNatTail (acc * 10 + (c.toNat - 48)) rest else none

/-- Nonempty digit run of Python `int(str)`. -/
def parseNatDigits : List Char → Option Nat
  | c :: rest => if isDig c then parseNatTail (c.toNat - 48) rest else none
  | [] => none

/-- Python `int(s)` for a string: optional surrounding whitespace,
optional sign, nonempty digits (ASCII scope); `none` when `int` raises
`ValueError`. -/
def pyIntOfStr (s : String) : Option Int :=
  match stripL s.data with
  | '+' :: rest => (parseNatDigits rest).map Int.ofNat
  | '-' :: rest => (parseNatDigits rest).map (fun n => -(n : Int))
  | rest => (parseNatDigits rest).map Int.ofNat

/-- The best-effort `int(...)` coercion of codedust.py lines 95-98: ints
stay, strings parse when they can, `int(True/False)` is 1/0, and
`int(None)` raises `TypeError` which the bare `except` swallows, leaving
the value unchanged. -/
def intCoerce : CVal → CVal
  | .vInt n => .vInt n
  | .vStr s =>
    match pyIntOfStr s with
    | some n => .vInt n
    | none => .vStr s
  | .vBool b => .vInt (if b then 1 else 0)
  | .vNone => .vNone

/-- The boolean a rule-code entry receives (codedust.py line 92):
`False` exactly when the value lower-cases to `"disable"`.  Only
config-sourced (string) values can reach this, since no key of
`static_rules` matches the rule-code pattern. -/
def disableToBool : CVal → Bool
  | .vStr s => !(pyLower s == "disable")
  | _ => true

/-- Python `{**a, **b}` on dictionaries rendered as association lists:
`a`'s keys keep their positions with values overridden by `b`, then `b`'s
new keys follow in order. -/
def dictMerge (a b : List (String × CVal)) : List (String × CVal) :=
  a.map (fun p => (p.1, ((b.lookup p.1).getD p.2))) ++
    b.filter (fun q => !(a.any (fun p => p.1 == q.1)))

/-- The per-extension key normalization loop of codedust.py lines 90-98:
keys whose upper-casing starts with `CD` + four digits are popped and
re-added (hence moved to the end, in iteration order) under their
upper-cased name with a boolean value; all other keys stay in place with
the best-effort int coercion.  The snapshot `list(... .keys())` means the
re-added upper-cased keys are not themselves iterated. -/
def applyCdRules (l : List (String × CVal)) : List (String × CVal) :=
  (l.filter (fun p => !cdKeyMatch p.1)).map (fun p => (p.1, intCoerce p.2)) ++
    (l.filter (fun p => cdKeyMatch p.1)).map
      (fun p => (pyUpper p.1, CVal.vBool (disableToBool p.2)))

/-- `static_rules` (codedust.py lines 71-76). -/
def staticRules : List (String × CVal) :=
  [ ("indent_size", .vInt 4), ("max_line_length", .vInt 120),
    ("section_header_length", .vInt 100), ("line_comment", .vNone) ]

/-- A config section's pairs as dictionary entries (configparser values
are strings). -/
def sectionEntries (cfg : Option Config) (name : String) : List (String × CVal) :=
  (((cfg.map Config.sections).getD []).lookup name).getD []
    |>.map (fun p => (p.1, CVal.vStr p.2))

/-- `load_rules` (codedust.py lines 70-100): layers `static_rules`, the
`default` section and the per-extension section, then normalizes
rule-code keys and coerces the rest, producing one rule dictionary per
extension. -/
def loadRules (cfg : Option Config) (extensions : List String) :
    List (String × List (String × CVal)) :=
  let defaultRules := dictMerge staticRules (sectionEntries cfg "default")
  extensions.map (fun ext =>
    (ext, applyCdRules (dictMerge defaultRules (sectionEntries cfg ext))))

example : loadRules none ["py"] =
    [("py", [("indent_size", .vInt 4), ("max_line_length", .vInt 120),
             ("section_header_length", .vInt 100), ("line_comment", .vNone)])] := by decide

example :
    loadRules (some ⟨[("default", [("cd0101x", "disable"), ("indent_size", "0"),
      ("line_comment", "7"), ("cd0202", "DiSaBle"), ("cd0203", "whatever")])]⟩) ["py"] =
    [("py", [("indent_size", .vInt 0), ("max_line_length", .vInt 120),
             ("section_header_length", .vInt 100), ("line_comment", .vInt 7),
             ("CD0101X", .vBool false), ("CD0202", .vBool false),
             ("CD0203", .vBool true)])] := by decide

/-! ## Lemmas -/

/-- Every pair emitted by a check block has its rule code enabled. -/
theorem buildIssues_mem_enabled (rs : RuleSet) (specs : List CheckSpec)
    (x : String × String) (hx : x ∈ buildIssues rs specs) :
    ruleEnabled rs x.1 = true := by
  induction specs with
  | nil => simp [buildIssues] at hx
  | cons t rest ih =>
    obtain ⟨cond, code, msg⟩ := t
    simp only [buildIssues, List.mem_append] at hx
    rcases hx with hx | hx
    · by_cases hc : (cond && ruleEnabled rs code) = true
      · rw [if_pos hc] at hx
        simp only [List.mem_singleton] at hx
        subst hx
        exact (Bool.and_eq_true _ _ |>.mp hc).2
      · rw [if_neg hc] at hx
        simp at hx
    · exact ih hx

/-- Every pair yielded by `inspect_line` has its rule code enabled. -/
theorem inspectLine_mem_enabled (prev : Option String) (curr : String)
    (next : Option String) (rs : RuleSet) (x : String × String)
    (hx : x ∈ (inspectLine prev curr next rs).1) : ruleEnabled rs x.1 = true := by
  unfold inspectLine at hx
  cases prev with
  | none => exact buildIssues_mem_enabled rs _ x hx
  | some p =>
    simp only at hx
    by_cases h1 : (isLineEmpty curr && next == none) = true
    · rw [if_pos h1] at hx
      rcases List.mem_append.mp hx with hx | hx
      · exact buildIssues_mem_enabled rs _ x hx
      · exact buildIssues_mem_enabled rs _ x hx
    · rw [if_neg h1] at hx
      by_cases h2 : (rs.indentSize == 0) = true
      · rw [if_pos h2] at hx
        rcases List.mem_append.mp hx with hx | hx
        rcases List.mem_append.mp hx with hx | hx
        all_goals exact buildIssues_mem_enabled rs _ x hx
      · rw [if_neg h2] at hx
        rcases List.mem_append.mp hx with hx | hx
        rcases List.mem_append.mp hx with hx | hx
        rcases List.mem_append.mp hx with hx | hx
        all_goals exact buildIssues_mem_enabled rs _ x hx

/-! ## Claims -/

/-- C1: for every rule-set and every line context, a rule code mapped to
`false` in the rule-set is never yielded by `inspect_line` for that line,
and a rule code absent from the rule-set is treated as enabled. -/
theorem c1_disabled_rule_never_fires (prev : Option String) (curr : String)
    (next : Option String) (rs : RuleSet) (X : String) :
    (rs.codes.lookup X = some false →
      hasCode X (inspectLine prev curr next rs).1 = false) ∧
    (rs.codes.lookup X = none → ruleEnabled rs X = true) := by
  constructor
  · intro h
    by_contra hne
    have htrue : hasCode X (inspectLine prev curr next rs).1 = true := by
      cases hh : hasCode X (inspectLine prev curr next rs).1 with
      | false => exact absurd hh hne
      | true => rfl
    obtain ⟨p, hp, hpX⟩ := List.any_eq_true.mp htrue
    have hpeq : p.1 = X := by simpa using hpX
    have hen := inspectLine_mem_enabled prev curr next rs p hp
    rw [hpeq] at hen
    rw [ruleEnabled, h] at hen
    simp at hen
  · intro h
    rw [ruleEnabled, h]
    rfl

/-- Witness for C1: with CD0202 disabled, a line with a trailing space
yields no CD0202, and with an empty toggle list CD0202 is enabled. -/
theorem c1_disabled_rule_never_fires_witness :
    hasCode "CD0202" (inspectLine (some "code\n") "some code \n" (some "more code\n")
      { indentSize := 4, maxLineLength := 120, sectionHeaderLength := 100,
        lineComment := some "#", codes := [("CD0202", false)] }).1 = false ∧
    ruleEnabled defaultTestRules "CD0202" = true :=
  ⟨(c1_disabled_rule_never_fires (some "code\n") "some code \n" (some "more code\n")
      { indentSize := 4, maxLineLength := 120, sectionHeaderLength := 100,
        lineComment := some "#", codes := [("CD0202", false)] } "CD0202").1 (by decide),
   (c1_disabled_rule_never_fires none "" none defaultTestRules "CD0202").2 (by decide)⟩

/-- C2 (refuted by the code, see `divergence` in the results): on the
line context the claim itself names — previous line present, current line
empty, next line absent — fully evaluating `inspect_line` raises
(`next_line.strip()` on `None` in the CD0106 guard), rather than skipping
the check; the context is reachable by scanning any file whose last line
is blank, e.g. `"a\n\n"`.  The repository's own test
`test_cd0102_empty_line_at_end_of_file` feeds exactly this context and
expects a normal one-violation result. -/
theorem c2_inspect_line_raises_on_trailing_blank :
    (inspectLine (some "some code\n") "\n" none defaultTestRules).2 = true ∧
    (inspectFile ["a\n", "\n"] defaultTestRules).2 = true := by decide

/-- The scanner loop only ever yields rule violations; the trailing note
is appended by `inspectFile` after the loop. -/
theorem scanLines_no_note (rs : RuleSet)
    (triples : List (Option String × String × Option String)) (k : Nat) (m : String) :
    ∀ (n : Nat) (en : Bool) (dl : Nat),
      Diag.note k m ∉ (scanLines rs triples n en dl).1 := by
  induction triples with
  | nil => intro n en dl; simp [scanLines]
  | cons t rest ih =>
    intro n en dl
    obtain ⟨pl, cl, nl⟩ := t
    rw [scanLines]
    simp only []
    repeat' split
    all_goals
      first
      | exact ih _ _ _
      | (intro hmem
         rcases List.mem_append.mp hmem with hx | hx
         · simp only [List.mem_map] at hx
           obtain ⟨p, _, hp⟩ := hx
           simp at hp
         · exact absurd hx (ih _ _ _))
      | (intro hmem
         simp only [List.mem_map] at hmem
         obtain ⟨p, _, hp⟩ := hmem
         simp at hp)

/-- If no processed line contains the OFF marker, the recorded
`code_dust_disabled_in_line` stays `0`. -/
theorem scanLines_dl_zero (rs : RuleSet)
    (triples : List (Option String × String × Option String))
    (h : ∀ t ∈ triples, hasSubStr " CodeDust: OFF\n" t.2.1 = false) :
    ∀ (n : Nat) (en : Bool), (scanLines rs triples n en 0).2.1 = 0 := by
  induction triples with
  | nil => intro n en; simp [scanLines]
  | cons t rest ih =>
    intro n en
    obtain ⟨pl, cl, nl⟩ := t
    have hcl : hasSubStr " CodeDust: OFF\n" cl = false := h (pl, cl, nl) (by simp)
    have hrest : ∀ t ∈ rest, hasSubStr " CodeDust: OFF\n" t.2.1 = false :=
      fun t ht => h t (List.mem_cons_of_mem _ ht)
    rw [scanLines]
    simp only [hcl, Bool.false_eq_true, if_false]
    repeat' split
    all_goals first | exact ih hrest _ _ | rfl

/-- The current line of every context triple is a line of the file. -/
theorem mkTriples_curr_mem (pv : Option String) (ls : List String)
    (t : Option String × String × Option String) (ht : t ∈ mkTriples pv ls) :
    t.2.1 ∈ ls := by
  induction ls generalizing pv with
  | nil => simp [mkTriples] at ht
  | cons c rest ih =>
    simp only [mkTriples, List.mem_cons] at ht
    rcases ht with h | h
    · subst h; simp
    · exact List.mem_cons_of_mem _ (ih _ h)

/-- C3: scanning the six-line suppression scenario under the default
rules reports exactly one trailing-space violation, on line 6 (the line
containing `d`), and none for the suppressed lines `b`, `c`; in general a
line processed while suppression is active (and not re-enabling it)
contributes no diagnostics — the scanner just advances, recording the
line number if the line contains the OFF marker. -/
theorem c3_suppression_scenario :
    inspectFile ["a\n", "# CodeDust: OFF\n", "b  \n", "c  \n", "# CodeDust: ON\n", "d  \n"]
        defaultTestRules =
      ([Diag.issue 6 "CD0202" "There should be no spaces at the end of a line."], false) ∧
    (∀ (pl : Option String) (cl : String) (nl : Option String) rest rs (n dl : Nat),
      hasSubStr " CodeDust: ON\n" cl = false →
      scanLines rs ((pl, cl, nl) :: rest) n false dl =
        scanLines rs rest (n + 1) false
          (if hasSubStr " CodeDust: OFF\n" cl then n + 1 else dl)) := by
  constructor
  · decide
  · intro pl cl nl rest rs n dl hON
    cases hOFF : hasSubStr " CodeDust: OFF\n" cl <;>
      simp [scanLines, hON, hOFF]

/-- Witness for C3's general conjunct, at a suppressed OFF-marker line. -/
theorem c3_suppression_scenario_witness :
    scanLines defaultTestRules [(none, "x # CodeDust: OFF\n", none)] 5 false 2 =
      scanLines defaultTestRules [] 6 false
        (if hasSubStr " CodeDust: OFF\n" "x # CodeDust: OFF\n" then 6 else 2) :=
  (c3_suppression_scenario).2 none "x # CodeDust: OFF\n" none [] defaultTestRules 5 2
    (by decide)

/-- C4: a file whose suppression is never re-enabled yields exactly one
synthetic no-rule-code note pointing at the line that turned suppression
on, whatever the rule-set contents; files with no OFF marker never
receive the note; the OFF-then-ON file receives none either. -/
theorem c4_unterminated_suppression_note :
    (∀ rs : RuleSet, inspectFile ["a\n", "# CodeDust: OFF\n", "b\n"] rs =
      ([Diag.note 2 "CodeDust should be re-enabled afterwards."], false)) ∧
    (∀ (lines : List String) (rs : RuleSet) (k : Nat) (m : String),
      (∀ l ∈ lines, hasSubStr " CodeDust: OFF\n" l = false) →
      Diag.note k m ∉ (inspectFile lines rs).1) ∧
    inspectFile ["a\n", "# CodeDust: OFF\n", "# CodeDust: ON\n"] defaultTestRules =
      ([], false) := by
  refine ⟨fun rs => rfl, ?_, by decide⟩
  intro lines rs k m h
  have htrip : ∀ t ∈ mkTriples (none : Option String) lines,
      hasSubStr " CodeDust: OFF\n" t.2.1 = false :=
    fun t ht => h t.2.1 (mkTriples_curr_mem none lines t ht)
  unfold inspectFile
  simp only []
  split
  · exact scanLines_no_note rs _ k m _ _ _
  · split
    · next hdl =>
      exfalso
      rw [scanLines_dl_zero rs (mkTriples none lines) htrip 0 true] at hdl
      exact absurd hdl (by simp)
    · exact scanLines_no_note rs _ k m _ _ _

/-- Witness for C4: the single-line file `"a\n"` has no OFF marker, so
its scan carries no synthetic note. -/
theorem c4_unterminated_suppression_note_witness :
    Diag.note 1 "CodeDust should be re-enabled afterwards." ∉
      (inspectFile ["a\n"] defaultTestRules).1 :=
  c4_unterminated_suppression_note.2.1 ["a\n"] defaultTestRules 1
    "CodeDust should be re-enabled afterwards." (by decide)

/-- C5: with `indent_size = 4` and the default rules, a 3-space indent
after a 0-indent non-empty line yields CD0302 but not CD0303; a 4-space
indent yields neither; an 8-space indent yields CD0303 (and no CD0302):
the indent-increase check fires only when the increase strictly exceeds
one `indent_size` unit. -/
theorem c5_indentation_scenarios :
    hasCode "CD0302" (inspectLine (some "unindented\n") "   indented\n"
      (some "more code\n") defaultTestRules).1 = true ∧
    hasCode "CD0303" (inspectLine (some "unindented\n") "   indented\n"
      (some "more code\n") defaultTestRules).1 = false ∧
    hasCode "CD0302" (inspectLine (some "unindented\n") "    indented\n"
      (some "more code\n") defaultTestRules).1 = false ∧
    hasCode "CD0303" (inspectLine (some "unindented\n") "    indented\n"
      (some "more code\n") defaultTestRules).1 = false ∧
    hasCode "CD0302" (inspectLine (some "unindented\n") "        indented\n"
      (some "more code\n") defaultTestRules).1 = false ∧
    hasCode "CD0303" (inspectLine (some "unindented\n") "        indented\n"
      (some "more code\n") defaultTestRules).1 = true := by decide

/-- C6: under the default rules `"a=b\n"` yields both CD0209 and CD0210,
while `"a ==== b\n"` (a run of four equal signs) yields neither. -/
theorem c6_equal_sign_scenarios :
    hasCode "CD0209" (inspectLine (some "code\n") "a=b\n"
      (some "more code\n") defaultTestRules).1 = true ∧
    hasCode "CD0210" (inspectLine (some "code\n") "a=b\n"
      (some "more code\n") defaultTestRules).1 = true ∧
    hasCode "CD0209" (inspectLine (some "code\n") "a ==== b\n"
      (some "more code\n") defaultTestRules).1 = false ∧
    hasCode "CD0210" (inspectLine (some "code\n") "a ==== b\n"
      (some "more code\n") defaultTestRules).1 = false := by decide

/-! ## Association-list lookup lemmas (for the rule-resolution claims) -/

theorem lookup_append (k : String) (a b : List (String × CVal)) :
    List.lookup k (a ++ b) =
      match List.lookup k a with
      | some v => some v
      | none => List.lookup k b := by
  induction a with
  | nil => simp [List.lookup]
  | cons p rest ih =>
    obtain ⟨k1, v1⟩ := p
    by_cases h : (k == k1) = true
    · simp [List.lookup, h]
    · simp only [Bool.not_eq_true] at h
      simp [List.lookup, h, ih]

/-- Looking up through a filter whose predicate depends only on the key. -/
theorem lookup_filter_key (k : String) (pk : String → Bool) (l : List (String × CVal)) :
    List.lookup k (l.filter (fun q => pk q.1)) =
      if pk k then List.lookup k l else none := by
  induction l with
  | nil => simp [List.lookup]
  | cons p rest ih =>
    obtain ⟨k1, v1⟩ := p
    by_cases h : (k == k1) = true
    · have hkk : k = k1 := by simpa using h
      subst hkk
      by_cases hp : pk k = true
      · simp [List.filter, hp, List.lookup, ih]
      · simp only [Bool.not_eq_true] at hp
        simp [List.filter, hp, List.lookup, ih]
    · simp only [Bool.not_eq_true] at h
      by_cases hp : pk k1 = true
      · simp [List.filter, hp, List.lookup, h, ih]
      · simp only [Bool.not_eq_true] at hp
        simp [List.filter, hp, List.lookup, h, ih]

/-- Looking up through a value-only map. -/
theorem lookup_map_val (k : String) (f : CVal → CVal) (l : List (String × CVal)) :
    List.lookup k (l.map (fun p => (p.1, f p.2))) = (List.lookup k l).map f := by
  induction l with
  | nil => simp [List.lookup]
  | cons p rest ih =>
    obtain ⟨k1, v1⟩ := p
    by_cases h : (k == k1) = true
    · simp [List.lookup, h]
    · simp only [Bool.not_eq_true] at h
      simp [List.lookup, h, ih]

/-- Looking up through the dictionary-merge override map. -/
theorem lookup_merge_override (k : String) (a b : List (String × CVal)) :
    List.lookup k (a.map (fun p => (p.1, ((b.lookup p.1).getD p.2)))) =
      (List.lookup k a).map (fun v => (b.lookup k).getD v) := by
  induction a with
  | nil => simp [List.lookup]
  | cons p rest ih =>
    obtain ⟨k1, v1⟩ := p
    by_cases h : (k == k1) = true
    · have hkk : k = k1 := by simpa using h
      subst hkk
      simp [List.lookup, ih]
    · simp only [Bool.not_eq_true] at h
      simp [List.lookup, h, ih]

/-- A key absent from every entry looks up to nothing. -/
theorem lookup_none_of_keys_ne (k : String) (l : List (String × CVal))
    (h : ∀ p ∈ l, k ≠ p.1) : List.lookup k l = none := by
  induction l with
  | nil => rfl
  | cons q rest ih =>
    have hq : k ≠ q.1 := h q (by simp)
    have hb : (k == q.1) = false := by simpa using hq
    obtain ⟨k1, v1⟩ := q
    simp only [List.lookup, hb]
    exact ih fun p hp => h p (List.mem_cons_of_mem _ hp)

/-- With pairwise-distinct keys, a member entry is what lookup finds. -/
theorem lookup_of_mem_nodupKeys (k : String) (v : CVal) (l : List (String × CVal))
    (hmem : (k, v) ∈ l) (hnd : (l.map (fun p => p.1)).Nodup) :
    List.lookup k l = some v := by
  induction l with
  | nil => simp at hmem
  | cons q rest ih =>
    rcases List.mem_cons.mp hmem with he | hm
    · obtain ⟨k1, v1⟩ := q
      obtain ⟨e1, e2⟩ := Prod.mk.injEq .. ▸ he
      subst e1; subst e2
      simp [List.lookup]
    · have hk1 : k ≠ q.1 := by
        intro e
        have : q.1 ∈ rest.map (fun p => p.1) := by
          rw [← e]
          exact List.mem_map.mpr ⟨(k, v), hm, rfl⟩
        exact (List.nodup_cons.mp hnd).1 this
      have hb : (k == q.1) = false := by simpa using hk1
      obtain ⟨k1, v1⟩ := q
      simp only [List.lookup, hb]
      exact ih hm (List.nodup_cons.mp hnd).2

/-- `{**a, **b}` looks up like `a` wherever `b` lacks the key. -/
theorem lookup_dictMerge_of_not_right (k : String) (a b : List (String × CVal))
    (hb : List.lookup k b = none) :
    List.lookup k (dictMerge a b) = List.lookup k a := by
  rw [dictMerge, lookup_append, lookup_merge_override, hb]
  cases ha : List.lookup k a with
  | some v => simp
  | none =>
    have hfil : List.lookup k (b.filter (fun q => !(a.any (fun p => p.1 == q.1)))) = none := by
      rw [lookup_filter_key k (fun x => !(a.any (fun p => p.1 == x))) b]
      split
      · exact hb
      · rfl
    simp [hfil]

/-- Python's upper-casing fixes digit characters. -/
theorem pyCharUpper_of_digit (c : Char) (h : isDig c = true) : pyCharUpper c = c := by
  simp only [isDig, Bool.and_eq_true, decide_eq_true_eq] at h
  rw [pyCharUpper, if_neg (by omega)]

/-- A list starting with `CD` and four digits still does after
upper-casing each character. -/
theorem cdPattern_map_pyCharUpper (l : List Char) (h : cdPattern l = true) :
    cdPattern (l.map pyCharUpper) = true := by
  match l with
  | [] | [_] | [_, _] | [_, _, _] | [_, _, _, _] | [_, _, _, _, _] =>
    simp [cdPattern] at h
  | c1 :: c2 :: d1 :: d2 :: d3 :: d4 :: t =>
    simp only [cdPattern, Bool.and_eq_true] at h
    obtain ⟨⟨⟨⟨⟨h1, h2⟩, h3⟩, h4⟩, h5⟩, h6⟩ := h
    have e1 : c1 = 'C' := by simpa using h1
    have e2 : c2 = 'D' := by simpa using h2
    subst e1; subst e2
    simp only [List.map, cdPattern, pyCharUpper_of_digit d1 h3, pyCharUpper_of_digit d2 h4,
      pyCharUpper_of_digit d3 h5, pyCharUpper_of_digit d4 h6, h3, h4, h5, h6]
    decide

/-- A matching key still matches after upper-casing (the first six
characters of its upper-casing are `C`, `D` and digits, all fixed
points). -/
theorem cdKeyMatch_pyUpper (k : String) (h : cdKeyMatch k = true) :
    cdKeyMatch (pyUpper k) = true := by
  rw [cdKeyMatch, pyUpper] at h ⊢
  exact cdPattern_map_pyCharUpper _ h

/-- A matching list starts with `C`. -/
theorem cdPattern_headC (l : List Char) (h : cdPattern l = true) :
    l.head? = some 'C' := by
  match l with
  | [] | [_] | [_, _] | [_, _, _] | [_, _, _, _] | [_, _, _, _, _] =>
    simp [cdPattern] at h
  | c1 :: c2 :: d1 :: d2 :: d3 :: d4 :: t =>
    simp only [cdPattern, Bool.and_eq_true] at h
    have e1 : c1 = 'C' := by simpa using h.1.1.1.1.1
    subst e1
    rfl

/-- Looking up a non-rule key in a per-extension rule dictionary: it sits
in the coerced non-rule-code part, untouched by the appended upper-cased
rule-code entries. -/
theorem applyCdRules_lookup_setting (l : List (String × CVal)) (k : String)
    (hk : cdKeyMatch k = false) :
    List.lookup k (applyCdRules l) = (List.lookup k l).map intCoerce := by
  rw [applyCdRules, lookup_append, lookup_map_val,
    lookup_filter_key k (fun x => !cdKeyMatch x) l]
  simp only [hk, Bool.not_false, if_true]
  cases hl : List.lookup k l with
  | some v => simp
  | none =>
    simp only [Option.map]
    have : List.lookup k ((l.filter (fun p => cdKeyMatch p.1)).map
        (fun p => (pyUpper p.1, CVal.vBool (disableToBool p.2)))) = none := by
      refine lookup_none_of_keys_ne _ _ fun q hq => ?_
      obtain ⟨p, hp, hpe⟩ := List.mem_map.mp hq
      have hcd : cdKeyMatch p.1 = true := (List.mem_filter.mp hp).2
      intro he
      rw [← hpe] at he
      rw [he] at hk
      rw [cdKeyMatch_pyUpper p.1 hcd] at hk
      simp at hk
    rw [this]

/-- Looking up a member's upper-cased key among the re-added rule-code
entries, when upper-cased keys are pairwise distinct. -/
theorem lookup_upperMap (m : List (String × CVal)) (k : String) (v : CVal)
    (hmem : (k, v) ∈ m)
    (hnodup : (m.map (fun p => pyUpper p.1)).Nodup) :
    List.lookup (pyUpper k)
        (m.map (fun p => (pyUpper p.1, CVal.vBool (disableToBool p.2)))) =
      some (.vBool (disableToBool v)) := by
  induction m with
  | nil => simp at hmem
  | cons q rest ih =>
    rcases List.mem_cons.mp hmem with he | hm
    · obtain ⟨k1, v1⟩ := q
      obtain ⟨e1, e2⟩ := Prod.mk.injEq .. ▸ he
      subst e1; subst e2
      simp [List.lookup]
    · have hne : pyUpper k ≠ pyUpper q.1 := by
        intro e
        have : pyUpper q.1 ∈ rest.map (fun p => pyUpper p.1) := by
          rw [← e]
          exact List.mem_map.mpr ⟨(k, v), hm, rfl⟩
        exact (List.nodup_cons.mp hnodup).1 this
      have hb : (pyUpper k == pyUpper q.1) = false := by simpa using hne
      obtain ⟨k1, v1⟩ := q
      simp only [List.map, List.lookup, hb]
      exact ih hm (List.nodup_cons.mp hnodup).2

/-- C7 (amended): in the per-extension normalization loop, a key whose
upper-casing *begins with* `CD` and four digits (the `re.match` prefix
semantics) is re-added under its full upper-cased name, mapped to `false`
exactly for the value `disable` (case-insensitively) and `true`
otherwise; every other key — known or unknown — stays, integer-coerced
when possible and otherwise unchanged, and no error is possible. -/
theorem c7_rule_key_normalization (l : List (String × CVal)) (k : String) (v : CVal)
    (hmem : (k, v) ∈ l) (hnodup : (l.map (fun p => pyUpper p.1)).Nodup) :
    (cdKeyMatch k = true →
      List.lookup (pyUpper k) (applyCdRules l) = some (.vBool (disableToBool v))) ∧
    (cdKeyMatch k = false →
      List.lookup k (applyCdRules l) = some (intCoerce v)) := by
  constructor
  · intro hk
    rw [applyCdRules, lookup_append, lookup_map_val,
      lookup_filter_key (pyUpper k) (fun x => !cdKeyMatch x) l]
    have hup : cdKeyMatch (pyUpper k) = true := cdKeyMatch_pyUpper k hk
    simp only [hup, Bool.not_true, Bool.false_eq_true, if_false, Option.map]
    have hmemf : (k, v) ∈ l.filter (fun p => cdKeyMatch p.1) :=
      List.mem_filter.mpr ⟨hmem, hk⟩
    have hndf : ((l.filter (fun p => cdKeyMatch p.1)).map (fun p => pyUpper p.1)).Nodup :=
      hnodup.sublist (List.Sublist.map _ (List.filter_sublist l))
    exact lookup_upperMap _ k v hmemf hndf
  · intro hk
    have hkeys : (l.map (fun p => p.1)).Nodup := by
      refine List.Nodup.of_map pyUpper ?_
      rw [List.map_map]
      simpa [Function.comp] using hnodup
    rw [applyCdRules_lookup_setting l k hk, lookup_of_mem_nodupKeys k v l hmem hkeys]
    rfl

/-- Modelled from the spec: a key "matching the rule-code pattern (the
two letters CD followed by four digits, case-insensitive)" read as the
whole key matching, the reading under which C7 is stated. -/
def specCdFullMatch (k : String) : Bool :=
  match (pyUpper k).data with
  | [c1, c2, d1, d2, d3, d4] =>
    c1 == 'C' && c2 == 'D' && isDig d1 && isDig d2 && isDig d3 && isDig d4
  | _ => false

/-- Counterexample to C7 as stated: the key `cd0101x` does not match the
rule-code pattern (CD plus exactly four digits), yet `load_rules` does
not leave it as a setting — `re.match` only anchors at the start, so the
key is consumed and re-added as the pseudo-rule-code `CD0101X` mapped to
a boolean. -/
theorem c7_rule_key_normalization_cex :
    specCdFullMatch "cd0101x" = false ∧
    (List.lookup "py" (loadRules (some ⟨[("default", [("cd0101x", "disable")])]⟩)
        ["py"])).map (fun l => (List.lookup "cd0101x" l, List.lookup "CD0101X" l)) =
      some (none, some (.vBool false)) := by decide

/-- Witness for C7's amended statement on a two-key dictionary. -/
theorem c7_rule_key_normalization_witness :
    List.lookup (pyUpper "cd0101x")
        (applyCdRules [("cd0101x", .vStr "disable"), ("indent_size", .vInt 4)]) =
      some (.vBool (disableToBool (.vStr "disable"))) ∧
    List.lookup "indent_size"
        (applyCdRules [("cd0101x", .vStr "disable"), ("indent_size", .vInt 4)]) =
      some (intCoerce (.vInt 4)) :=
  ⟨(c7_rule_key_normalization [("cd0101x", .vStr "disable"), ("indent_size", .vInt 4)]
      "cd0101x" (.vStr "disable") (by decide) (by decide)).1 (by decide),
   (c7_rule_key_normalization [("cd0101x", .vStr "disable"), ("indent_size", .vInt 4)]
      "indent_size" (.vInt 4) (by decide) (by decide)).2 (by decide)⟩

/-- Looking up a member in a keyed map takes the first occurrence, whose
payload is determined by the key. -/
theorem lookup_map_pair (e : String) (xs : List String)
    (g : String → List (String × CVal)) (he : e ∈ xs) :
    List.lookup e (xs.map (fun x => (x, g x))) = some (g e) := by
  induction xs with
  | nil => simp at he
  | cons x rest ih =>
    by_cases hb : (e == x) = true
    · have : e = x := by simpa using hb
      subst this
      simp [List.lookup]
    · simp only [Bool.not_eq_true] at hb
      have hm : e ∈ rest := by
        rcases List.mem_cons.mp he with h | h
        · subst h; simp at hb
        · exact h
      simp only [List.map, List.lookup, hb]
      exact ih hm

/-- Is the value a positive integer (C8's requirement for the numeric
settings). -/
def isPosIntVal : Option CVal → Bool
  | some (.vInt n) => decide (0 < n)
  | _ => false

/-- Is the value a string or an absence (C8's requirement for
`line_comment`). -/
def isStrOrAbsentVal : Option CVal → Bool
  | some (.vStr _) => true
  | some .vNone => true
  | none => true
  | _ => false

/-- Modelled from the spec: C8's invariant on one resolved rule
dictionary — the three numeric settings are positive integers and
`line_comment` is a string or absent. -/
def specSettingsInvariant (l : List (String × CVal)) : Bool :=
  isPosIntVal (List.lookup "indent_size" l) &&
  isPosIntVal (List.lookup "max_line_length" l) &&
  isPosIntVal (List.lookup "section_header_length" l) &&
  isStrOrAbsentVal (List.lookup "line_comment" l)

/-- Counterexample to C8 as stated: a config file may set
`indent_size = 0` (coerced to the non-positive integer `0`) and
`line_comment = 7` (integer-coerced, so neither a string nor absent);
`load_rules` performs no validation. -/
theorem c8_settings_invariant_cex :
    (List.lookup "py" (loadRules (some ⟨[("default",
        [("indent_size", "0"), ("line_comment", "7")])]⟩) ["py"])).map
      specSettingsInvariant = some false ∧
    (List.lookup "py" (loadRules (some ⟨[("default",
        [("indent_size", "0"), ("line_comment", "7")])]⟩) ["py"])).map
      (fun l => (List.lookup "indent_size" l, List.lookup "line_comment" l)) =
      some (some (.vInt 0), some (.vInt 7)) := by decide

/-- C8 (amended): whenever the configuration does not override the four
named settings (for the `default` section and the extension's section),
every rule-set `load_rules` returns maps the numeric settings to the
built-in positive defaults 4, 120, 100 and `line_comment` to the explicit
absence, so the spec invariant holds. -/
theorem c8_settings_default_invariant (cfg : Option Config) (exts : List String)
    (e : String) (he : e ∈ exts)
    (hdef : ∀ k ∈ ["indent_size", "max_line_length", "section_header_length",
        "line_comment"],
      List.lookup k (sectionEntries cfg "default") = none ∧
      List.lookup k (sectionEntries cfg e) = none) :
    ∃ l, List.lookup e (loadRules cfg exts) = some l ∧
      List.lookup "indent_size" l = some (.vInt 4) ∧
      List.lookup "max_line_length" l = some (.vInt 120) ∧
      List.lookup "section_header_length" l = some (.vInt 100) ∧
      List.lookup "line_comment" l = some .vNone ∧
      specSettingsInvariant l = true := by
  refine ⟨applyCdRules (dictMerge (dictMerge staticRules (sectionEntries cfg "default"))
    (sectionEntries cfg e)), ?_, ?_⟩
  · rw [loadRules]
    exact lookup_map_pair e exts _ he
  · have hkey : ∀ k, k ∈ ["indent_size", "max_line_length", "section_header_length",
        "line_comment"] → cdKeyMatch k = false →
        List.lookup k (applyCdRules (dictMerge (dictMerge staticRules
          (sectionEntries cfg "default")) (sectionEntries cfg e))) =
          (List.lookup k staticRules).map intCoerce := by
      intro k hkmem hkcd
      rw [applyCdRules_lookup_setting _ k hkcd,
        lookup_dictMerge_of_not_right k _ _ (hdef k hkmem).2,
        lookup_dictMerge_of_not_right k _ _ (hdef k hkmem).1]
    have h1 := hkey "indent_size" (by decide) (by decide)
    have h2 := hkey "max_line_length" (by decide) (by decide)
    have h3 := hkey "section_header_length" (by decide) (by decide)
    have h4 := hkey "line_comment" (by decide) (by decide)
    refine ⟨by rw [h1]; rfl, by rw [h2]; rfl, by rw [h3]; rfl, by rw [h4]; rfl, ?_⟩
    rw [specSettingsInvariant, h1, h2, h3, h4]
    decide

/-- Witness for C8's amended statement: with no config file, the `py`
rule-set carries the built-in defaults. -/
theorem c8_settings_default_invariant_witness :
    ∃ l, List.lookup "py" (loadRules none ["py"]) = some l ∧
      List.lookup "indent_size" l = some (.vInt 4) ∧
      List.lookup "max_line_length" l = some (.vInt 120) ∧
      List.lookup "section_header_length" l = some (.vInt 100) ∧
      List.lookup "line_comment" l = some .vNone ∧
      specSettingsInvariant l = true :=
  c8_settings_default_invariant none ["py"] "py" (by decide) (by decide)

/-- The presence of a given code among a check block's output, as one
Boolean per check. -/
theorem hasCode_buildIssues (rs : RuleSet) (X : String) (specs : List CheckSpec) :
    hasCode X (buildIssues rs specs) =
      specs.any (fun t => t.1 && ruleEnabled rs t.2.1 && (t.2.1 == X)) := by
  induction specs with
  | nil => rfl
  | cons t rest ih =>
    obtain ⟨cond, code, msg⟩ := t
    simp only [buildIssues, hasCode, List.any_append, List.any_cons] at ih ⊢
    by_cases hc : (cond && ruleEnabled rs code) = true
    · rw [if_pos hc, ih]
      simp [hc]
    · have hf : (cond && ruleEnabled rs code) = false := by simpa using hc
      rw [if_neg hc, ih]
      simp [hf]

/-- Counterexample to C9 as stated: for the line `"#comment\n"` under the
default rules the marker is not preceded by a space and the line does not
start with marker-plus-space, so the claim requires CD0502, yet the code
yields no CD0502 (it skips any line that merely *starts with* the
marker); CD0501 is yielded alone. -/
theorem c9_cd0502_condition_cex :
    hasSubStr (" " ++ "#") "#comment\n" = false ∧
    startsWithStr ("#" ++ " ") "#comment\n" = false ∧
    hasSubStr "#" "#comment\n" = true ∧
    isSectionHdrStr (stripStr "#comment\n") = false ∧
    hasCode "CD0502" (inspectLine (some "code\n") "#comment\n" (some "more code\n")
      defaultTestRules).1 = false ∧
    hasCode "CD0501" (inspectLine (some "code\n") "#comment\n" (some "more code\n")
      defaultTestRules).1 = true := by decide

/-- C9 (amended): with a non-empty configured `line_comment` occurring in
the current line, the line not a section header, the previous line
present (and the evaluation completing: the line context is not the
crashing empty-line-at-end-of-file one and `indent_size` is nonzero),
CD0502 is yielded exactly when the marker is not immediately preceded by
a space and the line does not start with the marker — regardless of what
follows the marker at the line start. -/
theorem c9_cd0502_condition (p curr : String) (next : Option String) (rs : RuleSet)
    (lc : String) (hlc : rs.lineComment = some lc) (hne : lc ≠ "")
    (hocc : hasSubStr lc curr = true)
    (hhdr : isSectionHdrStr (stripStr curr) = false)
    (hen : ruleEnabled rs "CD0502" = true)
    (hnocrash : (isLineEmpty curr && next == none) = false)
    (hindent : (rs.indentSize == 0) = false) :
    hasCode "CD0502" (inspectLine (some p) curr next rs).1 =
      (!hasSubStr (" " ++ lc) curr && !startsWithStr lc curr) := by
  have hlcb : (lc == "") = false := by simpa using hne
  have hasCode_append : ∀ (X : String) (u v : List (String × String)),
      hasCode X (u ++ v) = (hasCode X u || hasCode X v) := by
    intro X u v; simp [hasCode]
  rw [inspectLine]
  simp only [hnocrash, Bool.false_eq_true, if_false, hindent, hasCode_append,
    hasCode_buildIssues, specsA, specsB, specsC, specsD, hlc, hlcb, hocc, hhdr,
    List.any_append, List.any_cons, List.any_nil, hen]
  simp
  intro _ _
  exact hen

/-- Witness for C9's amended statement: an inline comment preceded by a
space on a line not starting with the marker. -/
theorem c9_cd0502_condition_witness :
    hasCode "CD0502" (inspectLine (some "code\n") "value #comment\n" (some "z\n")
      defaultTestRules).1 =
      (!hasSubStr (" " ++ "#") "value #comment\n" &&
        !startsWithStr "#" "value #comment\n") :=
  c9_cd0502_condition "code\n" "value #comment\n" (some "z\n") defaultTestRules "#"
    rfl (by decide) (by decide) (by decide) (by decide) (by decide) (by decide)

/-- Characters of a prefix occur in the containing list. -/
theorem mem_of_isPrefixL (n : List Char) (h : List Char) (hp : isPrefixL n h = true) :
    ∀ c ∈ n, c ∈ h := by
  induction n generalizing h with
  | nil => simp
  | cons a as ih =>
    match h with
    | [] => simp [isPrefixL] at hp
    | b :: bs =>
      simp only [isPrefixL, Bool.and_eq_true] at hp
      obtain ⟨hab, hrest⟩ := hp
      have hab2 : a = b := by simpa using hab
      intro c hc
      rcases List.mem_cons.mp hc with he | hc
      · rw [he, hab2]; simp
      · exact List.mem_cons_of_mem _ (ih bs hrest c hc)

/-- Characters of a substring occur in the containing list. -/
theorem mem_of_hasSubL (n : List Char) (h : List Char) (hs : hasSubL n h = true) :
    ∀ c ∈ n, c ∈ h := by
  induction h with
  | nil =>
    match n, hs with
    | [], _ => simp
  | cons x t ih =>
    rw [hasSubL] at hs
    rcases Bool.or_eq_true _ _ |>.mp hs with hp | hsub
    · exact mem_of_isPrefixL n (x :: t) hp
    · exact fun c hc => List.mem_cons_of_mem _ (ih hsub c hc)

/-- C10: the three scanner directives are recognized only with their
trailing newline inside the line, so a final line without a line break
never matches one (first conjunct); a marker-free line is scanned with
the state untouched and `inspect_line` invoked (second conjunct); an OFF
directive on a break-less final line suppresses nothing — the line is
inspected and no trailing note appears — unlike the same line with a
break; and a skipped line still serves as untouched neighbor context
(CD0105/CD0106 fire on the blank line between an opening line and the
skipped closing line). -/
theorem c10_directive_needs_newline :
    (∀ l : String, '\n' ∉ l.data →
      (hasSubStr " CodeDust: OFF\n" l = false ∧ hasSubStr " CodeDust: ON\n" l = false ∧
       hasSubStr " CodeDust: SKIP\n" l = false)) ∧
    (∀ (pl : Option String) (cl : String) (nl : Option String) rest rs (n dl : Nat),
      hasSubStr " CodeDust: OFF\n" cl = false → hasSubStr " CodeDust: ON\n" cl = false →
      hasSubStr " CodeDust: SKIP\n" cl = false →
      scanLines rs ((pl, cl, nl) :: rest) n true dl =
        (if (inspectLine pl cl nl rs).2 then
          ((inspectLine pl cl nl rs).1.map (fun q => Diag.issue (n + 1) q.1 q.2), dl, true)
         else
          ((inspectLine pl cl nl rs).1.map (fun q => Diag.issue (n + 1) q.1 q.2) ++
              (scanLines rs rest (n + 1) true dl).1,
            (scanLines rs rest (n + 1) true dl).2.1,
            (scanLines rs rest (n + 1) true dl).2.2))) ∧
    inspectFile ["a\n", "x  # CodeDust: OFF"] defaultTestRules =
      ([Diag.issue 2 "CD0103" "There should be a line break at the end of the file.",
        Diag.issue 2 "CD0201" "There should be no multiple consecutive spaces in a line."],
       false) ∧
    inspectFile ["a\n", "x  # CodeDust: OFF\n"] defaultTestRules =
      ([Diag.note 2 "CodeDust should be re-enabled afterwards."], false) ∧
    inspectFile ["foo (\n", "\n", ")  # CodeDust: SKIP\n"] defaultTestRules =
      ([Diag.issue 2 "CD0105"
          "There should be no empty lines at the start of a parenthesis block.",
        Diag.issue 2 "CD0106"
          "There should be no empty lines at the end of a parenthesis block."], false) := by
  refine ⟨?_, ?_, by decide, by decide, by decide⟩
  · intro l hnl
    refine ⟨?_, ?_, ?_⟩
    all_goals
      cases hs : hasSubStr _ l
      · rfl
      · exact absurd (mem_of_hasSubL _ _ hs '\n' (by decide)) hnl
  · intro pl cl nl rest rs n dl h1 h2 h3
    rw [scanLines]
    simp [h1, h2, h3]

/-- Witness for C10's hypotheses at concrete inputs: a break-less line
matches no directive, and one scanner step on a marker-free line. -/
theorem c10_directive_needs_newline_witness :
    (hasSubStr " CodeDust: OFF\n" "x # CodeDust: OFF" = false ∧
     hasSubStr " CodeDust: ON\n" "x # CodeDust: OFF" = false ∧
     hasSubStr " CodeDust: SKIP\n" "x # CodeDust: OFF" = false) ∧
    scanLines defaultTestRules [(none, "a\n", none)] 0 true 0 =
      (if (inspectLine none "a\n" none defaultTestRules).2 then
        ((inspectLine none "a\n" none defaultTestRules).1.map
          (fun q => Diag.issue 1 q.1 q.2), 0, true)
       else
        ((inspectLine none "a\n" none defaultTestRules).1.map
            (fun q => Diag.issue 1 q.1 q.2) ++
            (scanLines defaultTestRules [] 1 true 0).1,
          (scanLines defaultTestRules [] 1 true 0).2.1,
          (scanLines defaultTestRules [] 1 true 0).2.2)) :=
  ⟨c10_directive_needs_newline.1 "x # CodeDust: OFF" (by decide),
   c10_directive_needs_newline.2.1 none "a\n" none [] defaultTestRules 0 0
     (by decide) (by decide) (by decide)⟩
